import Mathlib

/-! proxy-pulse: pool lifecycle and request forwarding

A shallow embedding of `main.go`.  The package-level variable `ProxyPool` and the
outside world (the network reached through `net/http`) are passed explicitly as a
`State`.  Every call made on an `http.Client` is appended to the `calls` log of the state,
whether or not the client then sends anything, so that "no outbound call" and "exactly one
attempt" are statements about that log.  The answers of the network are not fixed: they come
from an `Env`, over which every theorem quantifies.

The standard-library pieces the program calls (`http.Header`, `http.ResponseWriter`,
`http.Error`, `io.Copy`) are written out below as small recording models.
-/

namespace ProxyPulse

/-! ## Library data: URLs, headers, requests, responses -/

/-- The fields of `url.URL` the program can observe. -/
structure URL where
  Scheme : String
  User : String
  Host : String
  Path : String
  RawQuery : String
  Fragment : String
deriving DecidableEq, Repr

/-- Bytes of `textproto.validHeaderFieldByte`: the token characters of RFC 7230. -/
def validHeaderFieldByte (c : Char) : Bool :=
  c.isAlphanum ||
    ['!', '#', '$', '%', '&', Char.ofNat 39, '*', '+', '-', '.', '^', '_', Char.ofNat 96,
      '|', '~'].contains c

/-- The rewriting loop of `textproto.canonicalMIMEHeaderKey`: upper-case the first letter
and every letter after a hyphen, lower-case the others. -/
def canonicalLoop : Bool → List Char → List Char
  | _, [] => []
  | upper, c :: cs =>
    let c1 := if upper && c.isLower then c.toUpper
              else if !upper && c.isUpper then c.toLower else c
    c1 :: canonicalLoop (c1 == '-') cs

/-- Model of `textproto.CanonicalMIMEHeaderKey` (= `http.CanonicalHeaderKey`): a key with a
byte that is not a header-field byte is returned unchanged. -/
def CanonicalHeaderKey (s : String) : String :=
  if s.data.all validHeaderFieldByte then String.mk (canonicalLoop true s.data) else s

/-- Model of `http.Header`, a `map[string][]string`, as an association list.  The order of
the entries stands for the (unspecified) iteration order of the Go map. -/
structure Header where
  entries : List (String × List String)
deriving DecidableEq, Repr

namespace Header

/-- The empty header map. -/
def empty : Header := ⟨[]⟩

/-- Raw map read on the entry list: the nil slice when the key is absent. -/
def lookupL : List (String × List String) → String → List String
  | [], _ => []
  | (k, vs) :: es, key => if k = key then vs else lookupL es key

/-- Raw map write on the entry list: replace the entry of the key, or add one. -/
def putL : List (String × List String) → String → List String → List (String × List String)
  | [], key, vs => [(key, vs)]
  | (k, v) :: es, key, vs => if k = key then (key, vs) :: es else (k, v) :: putL es key vs

/-- Raw map delete on the entry list. -/
def delL : List (String × List String) → String → List (String × List String)
  | [], _ => []
  | (k, v) :: es, key => if k = key then delL es key else (k, v) :: delL es key

/-- Raw map read `h[key]`. -/
def lookup (h : Header) (key : String) : List String := lookupL h.entries key

/-- Raw map write `h[key] = vs`. -/
def put (h : Header) (key : String) (vs : List String) : Header := ⟨putL h.entries key vs⟩

/-- Model of `Header.Values(key)`: the values stored under the canonical form of the key. -/
def Values (h : Header) (key : String) : List String := h.lookup (CanonicalHeaderKey key)

/-- Model of `Header.Add(key, value)`: append to the values of the canonical key. -/
def Add (h : Header) (key value : String) : Header :=
  h.put (CanonicalHeaderKey key) (h.lookup (CanonicalHeaderKey key) ++ [value])

/-- Model of `Header.Set(key, value)`: replace the values of the canonical key. -/
def Set (h : Header) (key value : String) : Header :=
  h.put (CanonicalHeaderKey key) [value]

/-- Model of `Header.Del(key)`. -/
def Del (h : Header) (key : String) : Header := ⟨delL h.entries (CanonicalHeaderKey key)⟩

end Header

/-- The parts of an `http.Request` the program can observe.  `RequestURI` is the request
target as the client sent it: the server sets it on every request it delivers to a handler,
and it is empty on a request built for a client. -/
structure Request where
  Method : String
  URL : URL
  Header : Header
  Body : List UInt8
  Host : String
  RequestURI : String
deriving DecidableEq, Repr

/-- An `http.Response` as returned by the client: status code, header map, and the body as
the sequence of chunks its reader yields. -/
structure Response where
  StatusCode : Nat
  Header : Header
  Body : List (List UInt8)
deriving DecidableEq, Repr

/-- Model of an `http.ResponseWriter` that records what is sent to the client: `header` is
the mutable map returned by `Header()`, `written` is the status line and the snapshot of the
headers taken by the first `WriteHeader`, `body` the bytes written so far, and `aborted`
records that the handler panicked inside `WriteHeader`: the server recovers the panic and
closes the connection, the response is never completed. -/
structure ResponseWriter where
  header : Header
  written : Option (Nat × Header)
  body : List UInt8
  aborted : Bool
deriving DecidableEq, Repr

/-- Model of `checkWriteHeaderCode`: `WriteHeader` accepts the codes 100 to 999 and panics
with "invalid WriteHeader code" on every other one. -/
def checkWriteHeaderCode (code : Nat) : Bool := decide (100 ≤ code) && decide (code ≤ 999)

namespace ResponseWriter

/-- The writer the server passes to a handler: nothing set, nothing written. -/
def fresh : ResponseWriter := ⟨Header.empty, none, [], false⟩

/-- Model of `WriteHeader(code)`: a call after the header was written is ignored; otherwise an
invalid code panics (`none`), and a valid one fixes the status and the headers sent.
Informational codes (100 to 199) are recorded like final ones here; servers send them as
interim responses, and nothing below relays a code under 200. -/
def WriteHeader (w : ResponseWriter) (code : Nat) : Option ResponseWriter :=
  match w.written with
  | some _ => some w
  | none =>
    if checkWriteHeaderCode code then some { w with written := some (code, w.header) }
    else none

/-- Model of `Write(p)`: an implicit `WriteHeader(200)` if none happened, then the bytes. -/
def Write (w : ResponseWriter) (p : List UInt8) : ResponseWriter :=
  let w1 := (w.WriteHeader 200).getD w
  { w1 with body := w1.body ++ p }

/-- Status code sent to the client, if the header has been written. -/
def status (w : ResponseWriter) : Option Nat := w.written.map Prod.fst

/-- Header map sent to the client (empty before the header is written). -/
def sentHeader (w : ResponseWriter) : Header :=
  match w.written with
  | some p => p.2
  | none => Header.empty

end ResponseWriter

/-- Model of `http.Error(w, msg, code)`: drop `Content-Length`, set the two headers, write
the status and then the message; with an invalid code the `WriteHeader` inside panics. -/
def httpError (w : ResponseWriter) (msg : String) (code : Nat) : ResponseWriter :=
  let w1 := { w with header := w.header.Del "Content-Length" }
  let w2 := { w1 with header := w1.header.Set "Content-Type" "text/plain; charset=utf-8" }
  let w3 := { w2 with header := w2.header.Set "X-Content-Type-Options" "nosniff" }
  match w3.WriteHeader code with
  | some w4 => w4.Write (msg ++ "\n").toUTF8.toList
  | none => { w3 with aborted := true }

/-- Model of `io.Copy(w, body)`: one `Write` per chunk read. -/
def ioCopy (w : ResponseWriter) (body : List (List UInt8)) : ResponseWriter :=
  body.foldl ResponseWriter.Write w

/-! ## The outside world -/

/-- One call made on an `http.Client` whose transport has `Proxy: http.ProxyURL(proxy)` and
whose `Timeout` is `timeout` seconds. -/
inductive Call where
  /-- The call `client.Get(target)`. -/
  | clientGet (proxy : URL) (timeout : Nat) (target : String)
  /-- The call `client.Do(req)`. -/
  | clientDo (proxy : URL) (timeout : Nat) (req : Request)
deriving DecidableEq, Repr

/-- The library functions whose results the program consumes.  `W` is the state of the
outside world, so that the same call may be answered differently at different times. -/
structure Env (W : Type) where
  /-- The function `url.Parse`: a URL, or an error message. -/
  parse : String → Except String URL
  /-- The answer of the network to a call the client sends; `none` is `err != nil` (any
  transport error or timeout). -/
  send : W → Call → Option Response × W
  /-- The method `(*http.Request).BasicAuth`: `some (user, pass)` is `ok == true`. -/
  basicAuth : Request → Option (String × String)

/-- The network as the program sees it: the world, and the log of the calls made on an
`http.Client` so far, oldest first. -/
structure Net (W : Type) where
  world : W
  calls : List Call

/-- Program state: the package variable `ProxyPool` and the network. -/
structure State (W : Type) where
  ProxyPool : List String
  net : Net W

/-- Send one call: log it and take the answer of the network. -/
def Net.issue {W : Type} (env : Env W) (n : Net W) (c : Call) : Option Response × Net W :=
  ((env.send n.world c).1, ⟨(env.send n.world c).2, n.calls ++ [c]⟩)

/-- Model of `(*http.Client).Do(req)`: the call is logged; a request whose `RequestURI` is set
is refused by the client before anything is sent, with the error "http: Request.RequestURI
can't be set in client requests", and the network is not consulted; any other request is
sent. -/
def Net.clientDo {W : Type} (env : Env W) (n : Net W) (proxy : URL) (timeout : Nat)
    (req : Request) : Option Response × Net W :=
  if req.RequestURI != "" then (none, ⟨n.world, n.calls ++ [Call.clientDo proxy timeout req]⟩)
  else n.issue env (Call.clientDo proxy timeout req)

/-! ## The program -/

/-- The fixed test URL of `validateProxy`. -/
def testURL : String := "http://www.example.com"

/-- Function `validateProxy`: parse the address, GET the test URL through it with a 5 s timeout,
accept exactly status 200. -/
def validateProxy {W : Type} (env : Env W) (n : Net W) (proxyAddress : String) :
    Bool × Net W :=
  match env.parse proxyAddress with
  | Except.error _ => (false, n)
  | Except.ok url =>
    match n.issue env (Call.clientGet url 5 testURL) with
    | (none, n1) => (false, n1)
    | (some resp, n1) => (resp.StatusCode == 200, n1)

/-- One iteration of the loop of `updateProxyList`; the accumulator is `validProxies`. -/
def updateStep {W : Type} (env : Env W) (acc : List String × Net W) (proxyAddress : String) :
    List String × Net W :=
  match validateProxy env acc.2 proxyAddress with
  | (true, n1) => (acc.1 ++ [proxyAddress], n1)
  | (false, n1) => (acc.1, n1)

/-- Function `updateProxyList`: probe every candidate in order, then assign the survivors to
`ProxyPool`. -/
def updateProxyList {W : Type} (env : Env W) (s : State W) (newProxies : List String) :
    State W :=
  let r := newProxies.foldl (updateStep env) ([], s.net)
  { ProxyPool := r.1, net := r.2 }

/-- Function `selectProxy`: the result `(*url.URL, error)` and the state afterwards. -/
def selectProxy {W : Type} (env : Env W) (s : State W) : Except String URL × State W :=
  if s.ProxyPool.length == 0 then
    (Except.error "no proxies available", s)
  else
    match s.ProxyPool.head? with
    | some first => (env.parse first, s)
    | none => (Except.error "index out of range", s)

/-- What a handler leaves behind: the state, the response writer, and the inbound request
(handlers receive `*http.Request` and may mutate it). -/
structure HandlerResult (σ : Type) where
  state : σ
  resp : ResponseWriter
  req : Request

/-- An `http.HandlerFunc` running over a state `σ`. -/
abbrev HandlerFunc (σ : Type) := σ → ResponseWriter → Request → HandlerResult σ

/-- The challenge sent by `BasicAuth`. -/
def basicChallenge : String := "Basic realm=\"Restricted\""

/-- Function `BasicAuth`: the middleware wrapping `handler`. -/
def BasicAuth {W σ : Type} (env : Env W) (handler : HandlerFunc σ)
    (username password : String) : HandlerFunc σ :=
  fun s w r =>
    let unauthorized : HandlerResult σ :=
      ⟨s, httpError { w with header := w.header.Set "WWW-Authenticate" basicChallenge }
            "Unauthorized" 401, r⟩
    match env.basicAuth r with
    | none => unauthorized
    | some (user, pass) =>
      if user != username || pass != password then unauthorized else handler s w r

/-- The loop copying the upstream response headers: for every key of `h`, in map order,
every value is added, in order, to the header map of the client response. -/
def copyHeader (resp : ResponseWriter) (h : Header) : ResponseWriter :=
  { resp with header :=
      h.entries.foldl (fun acc kv => kv.2.foldl (fun a v => a.Add kv.1 v) acc) resp.header }

/-- The two assignments `req.URL.Scheme = proxyURL.Scheme; req.URL.Host = proxyURL.Host`. -/
def pointAtProxy (req : Request) (proxyURL : URL) : Request :=
  { req with URL := { req.URL with Scheme := proxyURL.Scheme, Host := proxyURL.Host } }

/-- Function `handleRequestAndRedirect`: select a proxy, point the request at it, send it
through that proxy with a 10 s timeout, and relay the answer or answer 502. -/
def handleRequestAndRedirect {W : Type} (env : Env W) : HandlerFunc (State W) :=
  fun s resp req =>
    match selectProxy env s with
    | (Except.error _, s1) => ⟨s1, httpError resp "Failed to select proxy" 502, req⟩
    | (Except.ok proxyURL, s1) =>
      let req1 := pointAtProxy req proxyURL
      -- `*outReq = *req` is a shallow copy: it shares the rewritten URL
      let outReq := req1
      match s1.net.clientDo env proxyURL 10 outReq with
      | (none, n2) =>
        ⟨{ s1 with net := n2 }, httpError resp "Failed to forward request" 502, req1⟩
      | (some outResp, n2) =>
        let resp1 := copyHeader resp outResp.Header
        match resp1.WriteHeader outResp.StatusCode with
        | none =>
          -- `WriteHeader` panicked: the rest of the handler does not run
          ⟨{ s1 with net := n2 }, { resp1 with aborted := true }, req1⟩
        | some resp2 => ⟨{ s1 with net := n2 }, ioCopy resp2 outResp.Body, req1⟩

/-! ## Specification-side definitions -/

/-- The verdicts of the successive `validateProxy` calls on a candidate list, in call order,
each taken in the network left by the previous one. -/
def probeOutcomes {W : Type} (env : Env W) : Net W → List String → List Bool
  | _, [] => []
  | n, c :: cs => (validateProxy env n c).1 :: probeOutcomes env (validateProxy env n c).2 cs

/-- The probe sent for a candidate, if its address parses. -/
def probeOf {W : Type} (env : Env W) (proxyAddress : String) : Option Call :=
  match env.parse proxyAddress with
  | Except.error _ => none
  | Except.ok url => some (Call.clientGet url 5 testURL)

/-- States the program can be in: it starts with an empty pool and no call made, and then
refreshes the pool and serves requests in any order. -/
inductive Reachable {W : Type} (env : Env W) : State W → Prop where
  | init (w : W) : Reachable env ⟨[], ⟨w, []⟩⟩
  | update (s : State W) (newProxies : List String) :
      Reachable env s → Reachable env (updateProxyList env s newProxies)
  | serve (s : State W) (resp : ResponseWriter) (req : Request) :
      Reachable env s → Reachable env (handleRequestAndRedirect env s resp req).state

/-- The candidates whose probe succeeded, in their original order. -/
def survivors {W : Type} (env : Env W) (n : Net W) (cands : List String) : List String :=
  ((cands.zip (probeOutcomes env n cands)).filter (fun p => p.2)).map (fun p => p.1)

/-! ## Interleaving model of the mutex

Every access to `ProxyPool` happens between `mu.Lock()` and the deferred `mu.Unlock()`, so the
program is free of data races and its executions are the interleavings of its statements.
One call of `updateProxyList` and one call of `selectProxy` run as two threads; a schedule
picks the thread that takes the next step, and a step of a blocked or finished thread leaves
the configuration as it is. -/

/-- The two threads. -/
inductive Tid where
  | updater
  | selector
deriving DecidableEq, Repr

/-- Where the `updateProxyList` call stands: before `mu.Lock()`, in the loop with the
candidates still to probe and `validProxies`, before the deferred `mu.Unlock()` (the
assignment to `ProxyPool` done), or returned. -/
inductive UpdatePc where
  | lock
  | loop (todo : List String) (validProxies : List String)
  | unlock
  | done

/-- Where the `selectProxy` call stands: before `mu.Lock()`, before the test
`len(ProxyPool) == 0`, before the read `ProxyPool[0]`, before the deferred `mu.Unlock()` with
the result to return (`none` is an index-out-of-range panic), or returned. -/
inductive SelectPc where
  | lock
  | readLen
  | readFirst
  | unlock (result : Option (Except String URL))
  | done (result : Option (Except String URL))

/-- A configuration of the two threads: the shared variables `ProxyPool` and `mu` (its
holder), the network, the argument of the `updateProxyList` call, the two program counters,
and `seen`, the value of `ProxyPool` at each read made by `selectProxy`, in order. -/
structure Config (W : Type) where
  ProxyPool : List String
  mu : Option Tid
  net : Net W
  newProxies : List String
  upc : UpdatePc
  spc : SelectPc
  seen : List (List String)

/-- Both calls about to start, the mutex free. -/
def Config.init {W : Type} (pool : List String) (net : Net W) (newProxies : List String) :
    Config W :=
  ⟨pool, none, net, newProxies, UpdatePc.lock, SelectPc.lock, []⟩

/-- One statement of `updateProxyList`; `none` when it is blocked on the mutex or returned. -/
def stepUpdater {W : Type} (env : Env W) (c : Config W) : Option (Config W) :=
  match c.upc with
  | UpdatePc.lock =>
    if c.mu.isNone then
      some { c with mu := some Tid.updater, upc := UpdatePc.loop c.newProxies [] }
    else none
  | UpdatePc.loop (proxyAddress :: todo) validProxies =>
    some { c with
      net := (updateStep env (validProxies, c.net) proxyAddress).2,
      upc := UpdatePc.loop todo (updateStep env (validProxies, c.net) proxyAddress).1 }
  | UpdatePc.loop [] validProxies =>
    some { c with ProxyPool := validProxies, upc := UpdatePc.unlock }
  | UpdatePc.unlock => some { c with mu := none, upc := UpdatePc.done }
  | UpdatePc.done => none

/-- One statement of `selectProxy`; `none` when it is blocked on the mutex or returned. -/
def stepSelector {W : Type} (env : Env W) (c : Config W) : Option (Config W) :=
  match c.spc with
  | SelectPc.lock =>
    if c.mu.isNone then some { c with mu := some Tid.selector, spc := SelectPc.readLen }
    else none
  | SelectPc.readLen =>
    if c.ProxyPool.length == 0 then
      some { c with seen := c.seen ++ [c.ProxyPool],
                    spc := SelectPc.unlock (some (Except.error "no proxies available")) }
    else some { c with seen := c.seen ++ [c.ProxyPool], spc := SelectPc.readFirst }
  | SelectPc.readFirst =>
    match c.ProxyPool.head? with
    | some first =>
      some { c with seen := c.seen ++ [c.ProxyPool],
                    spc := SelectPc.unlock (some (env.parse first)) }
    | none => some { c with seen := c.seen ++ [c.ProxyPool], spc := SelectPc.unlock none }
  | SelectPc.unlock result => some { c with mu := none, spc := SelectPc.done result }
  | SelectPc.done _ => none

/-- One step of the scheduled thread. -/
def step {W : Type} (env : Env W) (c : Config W) (t : Tid) : Config W :=
  match t with
  | Tid.updater => (stepUpdater env c).getD c
  | Tid.selector => (stepSelector env c).getD c

/-- Run a schedule. -/
def run {W : Type} (env : Env W) (sched : List Tid) (c : Config W) : Config W :=
  sched.foldl (step env) c

/-- Invariant of the interleaved run started from `pool`, `net0` and the candidates
`cands`: what each program counter says about the shared variables. -/
def Inv {W : Type} (env : Env W) (pool : List String) (net0 : Net W) (cands : List String)
    (c : Config W) : Prop :=
  c.newProxies = cands ∧
  (match c.upc with
    | UpdatePc.lock => c.ProxyPool = pool ∧ c.net = net0 ∧ c.mu ≠ some Tid.updater
    | UpdatePc.loop todo validProxies =>
      c.ProxyPool = pool ∧ c.mu = some Tid.updater ∧
        validProxies ++ survivors env c.net todo = survivors env net0 cands
    | UpdatePc.unlock => c.ProxyPool = survivors env net0 cands ∧ c.mu = some Tid.updater
    | UpdatePc.done => c.ProxyPool = survivors env net0 cands ∧ c.mu ≠ some Tid.updater) ∧
  (match c.spc with
    | SelectPc.lock => c.seen = [] ∧ c.mu ≠ some Tid.selector
    | SelectPc.readLen => c.seen = [] ∧ c.mu = some Tid.selector
    | SelectPc.readFirst =>
      c.seen = [c.ProxyPool] ∧ c.ProxyPool ≠ [] ∧ c.mu = some Tid.selector
    | SelectPc.unlock result =>
      c.mu = some Tid.selector ∧ (∀ P ∈ c.seen, P = c.ProxyPool) ∧
        result = some (selectProxy env ⟨c.ProxyPool, net0⟩).1
    | SelectPc.done result =>
      ∃ P0, (P0 = pool ∨ P0 = survivors env net0 cands) ∧ (∀ P ∈ c.seen, P = P0) ∧
        result = some (selectProxy env ⟨P0, net0⟩).1)

/-! ## A small concrete environment, used to instantiate the theorems -/

/-- Split an address at its first `://`: the scheme and what follows. -/
def schemeSplit : List Char → List Char → Option (List Char × List Char)
  | _, [] => none
  | acc, ':' :: '/' :: '/' :: rest => some (acc.reverse, rest)
  | acc, c :: cs => schemeSplit (c :: acc) cs

/-- A toy `url.Parse`: `scheme://host` gives that scheme and host, an address starting with a
colon is the error "missing protocol scheme", anything else is a bare path. -/
def sampleParse (a : String) : Except String URL :=
  match a.data with
  | ':' :: _ => Except.error "missing protocol scheme"
  | cs =>
    match schemeSplit [] cs with
    | some (scheme, host) => Except.ok ⟨String.mk scheme, "", String.mk host, "", "", ""⟩
    | none => Except.ok ⟨"", "", "", a, "", ""⟩

/-- The upstream answer of the toy network: 200, two headers, body `ok` in two chunks. -/
def sampleResponse : Response :=
  ⟨200, ⟨[("Content-Type", ["text/plain"]), ("Set-Cookie", ["a=1", "b=2"])]⟩, [[111], [107]]⟩

/-- An upstream answer with the status line `HTTP/1.1 099`. -/
def oddResponse : Response := ⟨99, Header.empty, []⟩

/-- A toy network counting the calls it has answered: the proxy `good:8080` works, the proxy
`teapot:8080` answers probes with 418, the proxy `odd:8080` answers requests with status 99,
every other proxy is unreachable; the credentials `user` / `pass` are read from the header
`Authorization: Basic dXNlcjpwYXNz`. -/
def sampleEnv : Env Nat where
  parse := sampleParse
  send := fun w c =>
    match c with
    | Call.clientGet proxy _ _ =>
      (if proxy.Host = "good:8080" then some ⟨200, Header.empty, []⟩
        else if proxy.Host = "teapot:8080" then some ⟨418, Header.empty, []⟩ else none, w + 1)
    | Call.clientDo proxy _ _ =>
      (if proxy.Host = "good:8080" then some sampleResponse
        else if proxy.Host = "odd:8080" then some oddResponse else none, w + 1)
  basicAuth := fun r =>
    match r.Header.Values "Authorization" with
    | ["Basic dXNlcjpwYXNz"] => some ("user", "pass")
    | _ => none

/-- The verdict of `validateProxy` in the toy network, as a function of the address. -/
def sampleOk (a : String) : Bool := (validateProxy sampleEnv ⟨0, []⟩ a).1

/-- The URL of the working proxy. -/
def goodURL : URL := ⟨"http", "", "good:8080", "", "", ""⟩

/-- The URL of an unreachable proxy. -/
def deadURL : URL := ⟨"http", "", "dead:1", "", "", ""⟩

/-- The URL of the proxy answering with status 99. -/
def oddURL : URL := ⟨"http", "", "odd:8080", "", "", ""⟩

/-- An inbound request, as a server delivers it: `RequestURI` is set. -/
def sampleRequest : Request :=
  ⟨"GET", ⟨"https", "", "origin.test", "/a", "q=1", ""⟩, ⟨[("Accept", ["*/*"])]⟩, [],
    "origin.test", "/a?q=1"⟩

/-- The same request carrying the credentials `user` / `pass`. -/
def authedRequest : Request :=
  { sampleRequest with
    Header := ⟨[("Accept", ["*/*"]), ("Authorization", ["Basic dXNlcjpwYXNz"])]⟩ }

/-- The same request with `RequestURI` empty, as a caller other than the server can build
it. -/
def clientRequest : Request := { sampleRequest with RequestURI := "" }

/-- The toy network before any call. -/
def net0 : Net Nat := ⟨0, []⟩

/-! ## Lemmas on the refresh loop -/

theorem updateStep_eq {W : Type} (env : Env W) (acc : List String × Net W) (c : String) :
    updateStep env acc c =
      (if (validateProxy env acc.2 c).1 then acc.1 ++ [c] else acc.1,
        (validateProxy env acc.2 c).2) := by
  unfold updateStep
  rcases h : validateProxy env acc.2 c with ⟨b, n1⟩
  cases b <;> simp

theorem survivors_nil {W : Type} (env : Env W) (n : Net W) : survivors env n [] = [] := rfl

theorem survivors_cons {W : Type} (env : Env W) (n : Net W) (c : String) (cs : List String) :
    survivors env n (c :: cs) =
      (if (validateProxy env n c).1 then [c] else []) ++
        survivors env (validateProxy env n c).2 cs := by
  unfold survivors
  simp only [probeOutcomes, List.zip_cons_cons, List.filter_cons]
  cases (validateProxy env n c).1 <;> simp

theorem foldl_updateStep_fst {W : Type} (env : Env W) (cands : List String) :
    ∀ (acc : List String) (n : Net W),
      (cands.foldl (updateStep env) (acc, n)).1 = acc ++ survivors env n cands := by
  induction cands with
  | nil => intro acc n; simp [survivors_nil]
  | cons c cs ih =>
    intro acc n
    rw [List.foldl_cons, updateStep_eq, ih, survivors_cons]
    cases (validateProxy env n c).1 <;> simp

theorem probeOutcomes_length {W : Type} (env : Env W) (cands : List String) :
    ∀ n : Net W, (probeOutcomes env n cands).length = cands.length := by
  induction cands with
  | nil => intro n; rfl
  | cons c cs ih => intro n; simp [probeOutcomes, ih]

theorem survivors_length {W : Type} (env : Env W) (cands : List String) :
    ∀ n : Net W, (survivors env n cands).length = (probeOutcomes env n cands).count true := by
  induction cands with
  | nil => intro n; rfl
  | cons c cs ih =>
    intro n
    rw [survivors_cons, List.length_append, ih]
    simp only [probeOutcomes, List.count_cons]
    cases (validateProxy env n c).1
    · simp
    · simp; omega

theorem survivors_sublist {W : Type} (env : Env W) (cands : List String) :
    ∀ n : Net W, (survivors env n cands).Sublist cands := by
  induction cands with
  | nil => intro n; simp [survivors_nil]
  | cons c cs ih =>
    intro n
    rw [survivors_cons]
    cases (validateProxy env n c).1
    · simpa using (ih _).cons c
    · simpa using (ih _).cons₂ c

theorem probeOutcomes_of_fun {W : Type} (env : Env W) (ok : String → Bool)
    (h : ∀ (n : Net W) (a : String), (validateProxy env n a).1 = ok a) (cands : List String) :
    ∀ n : Net W, probeOutcomes env n cands = cands.map ok := by
  induction cands with
  | nil => intro n; rfl
  | cons c cs ih => intro n; simp [probeOutcomes, ih, h]

theorem survivors_of_fun {W : Type} (env : Env W) (ok : String → Bool)
    (h : ∀ (n : Net W) (a : String), (validateProxy env n a).1 = ok a) (cands : List String) :
    ∀ n : Net W, survivors env n cands = cands.filter ok := by
  induction cands with
  | nil => intro n; rfl
  | cons c cs ih =>
    intro n
    rw [survivors_cons, ih, h, List.filter_cons]
    cases ok c <;> simp

theorem mem_survivors {W : Type} (env : Env W) (cands : List String) :
    ∀ (n : Net W) (a : String), a ∈ survivors env n cands →
      ∃ n1 : Net W, (validateProxy env n1 a).1 = true := by
  induction cands with
  | nil => intro n a h; simp [survivors_nil] at h
  | cons c cs ih =>
    intro n a h
    rw [survivors_cons, List.mem_append] at h
    rcases h with h | h
    · by_cases hv : (validateProxy env n c).1 = true
      · simp only [hv, if_true, List.mem_singleton] at h
        exact ⟨n, h ▸ hv⟩
      · simp [hv] at h
    · exact ih _ a h

theorem validateProxy_calls {W : Type} (env : Env W) (n : Net W) (a : String) :
    (validateProxy env n a).2.calls = n.calls ++ (probeOf env a).toList := by
  unfold validateProxy probeOf
  cases env.parse a with
  | error e => simp
  | ok u =>
    simp only [Net.issue]
    cases (env.send n.world (Call.clientGet u 5 testURL)).1 <;> simp

theorem foldl_updateStep_calls {W : Type} (env : Env W) (cands : List String) :
    ∀ (acc : List String) (n : Net W),
      (cands.foldl (updateStep env) (acc, n)).2.calls =
        n.calls ++ cands.filterMap (probeOf env) := by
  induction cands with
  | nil => intro acc n; simp
  | cons c cs ih =>
    intro acc n
    rw [List.foldl_cons, updateStep_eq, ih, validateProxy_calls]
    cases h : probeOf env c <;> simp [List.filterMap_cons, h]

theorem validateProxy_true_iff {W : Type} (env : Env W) (n : Net W) (a : String) :
    (validateProxy env n a).1 = true ↔
      ∃ u, env.parse a = Except.ok u ∧
        ∃ r, (env.send n.world (Call.clientGet u 5 testURL)).1 = some r ∧
          r.StatusCode = 200 := by
  unfold validateProxy
  cases hp : env.parse a with
  | error e => simp
  | ok u =>
    simp only [Net.issue]
    cases hs : (env.send n.world (Call.clientGet u 5 testURL)).1 with
    | none => simp [hs]
    | some r => simp [hs]

theorem selectProxy_fst {W : Type} (env : Env W) (s : State W) :
    (selectProxy env s).1 =
      (match s.ProxyPool with
        | [] => Except.error "no proxies available"
        | first :: _ => env.parse first) := by
  unfold selectProxy
  cases h : s.ProxyPool with
  | nil => simp
  | cons a rest => simp

theorem selectProxy_snd {W : Type} (env : Env W) (s : State W) : (selectProxy env s).2 = s := by
  unfold selectProxy
  split
  · rfl
  · split <;> rfl

theorem pool_eq_survivors {W : Type} (env : Env W) (s : State W)
    (newProxies : List String) :
    (updateProxyList env s newProxies).ProxyPool = survivors env s.net newProxies := by
  simp [updateProxyList, foldl_updateStep_fst]

/-- C1: after `updateProxyList(candidates)` the pool is exactly the list of candidates whose
probe succeeded, in their original order and with duplicates kept; its length is the number
of successful probes among the N verdicts; it is a sublist of the candidates; it is the same
whatever the prior pool was; and when the probe verdict is a function `ok` of the address,
the pool is `candidates.filter ok`, of length the number of candidates satisfying `ok`. -/
theorem updateProxyList_pool {W : Type} (env : Env W) (s : State W)
    (newProxies : List String) :
    (updateProxyList env s newProxies).ProxyPool = survivors env s.net newProxies ∧
    (probeOutcomes env s.net newProxies).length = newProxies.length ∧
    (updateProxyList env s newProxies).ProxyPool.length =
      (probeOutcomes env s.net newProxies).count true ∧
    (updateProxyList env s newProxies).ProxyPool.Sublist newProxies ∧
    (∀ prior : List String,
      updateProxyList env ⟨prior, s.net⟩ newProxies = updateProxyList env s newProxies) ∧
    (∀ ok : String → Bool, (∀ (n : Net W) (a : String), (validateProxy env n a).1 = ok a) →
      (updateProxyList env s newProxies).ProxyPool = newProxies.filter ok ∧
      (updateProxyList env s newProxies).ProxyPool.length = newProxies.countP ok) := by
  have hp := pool_eq_survivors env s newProxies
  refine ⟨hp, probeOutcomes_length env newProxies s.net, ?_, ?_, ?_, ?_⟩
  · rw [hp]; exact survivors_length env newProxies s.net
  · rw [hp]; exact survivors_sublist env newProxies s.net
  · intro prior; rfl
  · intro ok hok
    rw [hp, survivors_of_fun env ok hok]
    exact ⟨rfl, by rw [List.countP_eq_length_filter]⟩

/-- C2: `selectProxy` on an empty pool fails with the error "no proxies available"; on a
non-empty pool its result is `url.Parse` of the first address; it leaves the state (pool
included) unchanged, so any number of consecutive calls return what the first returned. -/
theorem selectProxy_spec {W : Type} (env : Env W) (s : State W) :
    (selectProxy env s).1 =
      (match s.ProxyPool with
        | [] => Except.error "no proxies available"
        | first :: _ => env.parse first) ∧
    (selectProxy env s).2 = s ∧
    ∀ k : Nat, selectProxy env (Nat.iterate (fun t => (selectProxy env t).2) k s) =
      selectProxy env s := by
  refine ⟨selectProxy_fst env s, selectProxy_snd env s, ?_⟩
  intro k
  have : Nat.iterate (fun t => (selectProxy env t).2) k s = s := by
    induction k with
    | zero => rfl
    | succ k ih => rw [Function.iterate_succ_apply', ih, selectProxy_snd]
  rw [this]

/-- C7: `validateProxy` returns true exactly when the address parses, the GET of the test URL
through it returns a response, and that response has status 200; an address that does not
parse is rejected with the network untouched (no call logged); a parsed address costs exactly
one GET; and a whole `updateProxyList` run issues, in order, the probe of every candidate that
parses, whatever the verdicts of the earlier ones. -/
theorem validateProxy_spec {W : Type} (env : Env W) (n : Net W) (a : String) (s : State W)
    (newProxies : List String) :
    ((validateProxy env n a).1 = true ↔
      ∃ u, env.parse a = Except.ok u ∧
        ∃ r, (env.send n.world (Call.clientGet u 5 testURL)).1 = some r ∧
          r.StatusCode = 200) ∧
    (∀ e, env.parse a = Except.error e → validateProxy env n a = (false, n)) ∧
    (∀ u, env.parse a = Except.ok u →
      (validateProxy env n a).2.calls = n.calls ++ [Call.clientGet u 5 testURL]) ∧
    (updateProxyList env s newProxies).net.calls =
      s.net.calls ++ newProxies.filterMap (probeOf env) := by
  refine ⟨validateProxy_true_iff env n a, ?_, ?_, ?_⟩
  · intro e he
    simp [validateProxy, he]
  · intro u hu
    rw [validateProxy_calls]
    simp [probeOf, hu]
  · simp [updateProxyList, foldl_updateStep_calls]

/-! ## Lemmas on header maps and response writers -/

theorem Header.lookup_put_self (h : Header) (k : String) (vs : List String) :
    (h.put k vs).lookup k = vs := by
  rcases h with ⟨es⟩
  simp only [Header.put, Header.lookup]
  induction es with
  | nil => simp [Header.putL, Header.lookupL]
  | cons e es ih =>
    rcases e with ⟨k0, v0⟩
    by_cases he : k0 = k
    · simp [Header.putL, Header.lookupL, he]
    · simp [Header.putL, Header.lookupL, he, ih]

theorem Header.lookup_put_ne (h : Header) (k k1 : String) (vs : List String) (hne : k1 ≠ k) :
    (h.put k vs).lookup k1 = h.lookup k1 := by
  rcases h with ⟨es⟩
  simp only [Header.put, Header.lookup]
  have hne1 : ¬ k = k1 := fun h1 => hne h1.symm
  induction es with
  | nil => simp [Header.putL, Header.lookupL, hne1]
  | cons e es ih =>
    rcases e with ⟨k0, v0⟩
    by_cases he : k0 = k
    · subst he
      simp [Header.putL, Header.lookupL, hne1]
    · by_cases he1 : k0 = k1
      · subst he1
        simp [Header.putL, Header.lookupL, he]
      · simp [Header.putL, Header.lookupL, he, he1, ih]

theorem Header.lookup_del_ne (h : Header) (k k1 : String)
    (hne : k1 ≠ CanonicalHeaderKey k) : (h.Del k).lookup k1 = h.lookup k1 := by
  rcases h with ⟨es⟩
  simp only [Header.Del, Header.lookup]
  have hne1 : ¬ CanonicalHeaderKey k = k1 := fun h1 => hne h1.symm
  induction es with
  | nil => rfl
  | cons e es ih =>
    rcases e with ⟨k0, v0⟩
    by_cases he : k0 = CanonicalHeaderKey k
    · subst he
      simp [Header.delL, Header.lookupL, hne1, ih]
    · by_cases he1 : k0 = k1
      · subst he1
        simp [Header.delL, Header.lookupL, he]
      · simp [Header.delL, Header.lookupL, he, he1, ih]

theorem WriteHeader_valid (w : ResponseWriter) (code : Nat) (hw : w.written = none)
    (hc : checkWriteHeaderCode code = true) :
    w.WriteHeader code = some { w with written := some (code, w.header) } := by
  simp [ResponseWriter.WriteHeader, hw, hc]

theorem WriteHeader_invalid (w : ResponseWriter) (code : Nat) (hw : w.written = none)
    (hc : checkWriteHeaderCode code = false) : w.WriteHeader code = none := by
  simp [ResponseWriter.WriteHeader, hw, hc]

theorem Write_written (w : ResponseWriter) (p : Nat × Header) (c : List UInt8)
    (h : w.written = some p) : (w.Write c).written = some p ∧ (w.Write c).aborted = w.aborted := by
  simp [ResponseWriter.Write, ResponseWriter.WriteHeader, h]

theorem httpError_written (w : ResponseWriter) (msg : String) (code : Nat)
    (hw : w.written = none) (hc : checkWriteHeaderCode code = true) :
    (httpError w msg code).written =
      some (code, ((w.header.Del "Content-Length").Set "Content-Type"
        "text/plain; charset=utf-8").Set "X-Content-Type-Options" "nosniff") := by
  simp [httpError, ResponseWriter.WriteHeader, ResponseWriter.Write, hw, hc]

theorem httpError_status (w : ResponseWriter) (msg : String) (code : Nat)
    (hw : w.written = none) (hc : checkWriteHeaderCode code = true) :
    (httpError w msg code).status = some code := by
  simp [ResponseWriter.status, httpError_written w msg code hw hc]

theorem httpError_sentHeader (w : ResponseWriter) (msg : String) (code : Nat)
    (hw : w.written = none) (hc : checkWriteHeaderCode code = true) :
    (httpError w msg code).sentHeader =
      ((w.header.Del "Content-Length").Set "Content-Type"
        "text/plain; charset=utf-8").Set "X-Content-Type-Options" "nosniff" := by
  simp [ResponseWriter.sentHeader, httpError_written w msg code hw hc]

theorem httpError_body (w : ResponseWriter) (msg : String) (code : Nat)
    (hw : w.written = none) (hc : checkWriteHeaderCode code = true) :
    (httpError w msg code).body = w.body ++ (msg ++ "\n").toUTF8.toList := by
  simp [httpError, ResponseWriter.WriteHeader, ResponseWriter.Write, hw, hc]

theorem httpError_aborted (w : ResponseWriter) (msg : String) (code : Nat)
    (hw : w.written = none) (hc : checkWriteHeaderCode code = true) :
    (httpError w msg code).aborted = w.aborted := by
  simp [httpError, ResponseWriter.WriteHeader, ResponseWriter.Write, hw, hc]

theorem ioCopy_written (body : List (List UInt8)) :
    ∀ (w : ResponseWriter) (p : Nat × Header), w.written = some p →
      (ioCopy w body).written = some p ∧ (ioCopy w body).aborted = w.aborted := by
  induction body with
  | nil => intro w p h; exact ⟨by simpa [ioCopy] using h, rfl⟩
  | cons c cs ih =>
    intro w p h
    simp only [ioCopy, List.foldl_cons]
    have h1 := Write_written w p c h
    have h2 := ih (w.Write c) p h1.1
    simp only [ioCopy] at h2
    exact ⟨h2.1, h2.2.trans h1.2⟩

/-! ## Lemmas on the handler: its exits -/

theorem clientDo_calls {W : Type} (env : Env W) (n : Net W) (p : URL) (t : Nat)
    (r : Request) : (n.clientDo env p t r).2.calls = n.calls ++ [Call.clientDo p t r] := by
  unfold Net.clientDo
  split <;> rfl

theorem clientDo_refused {W : Type} (env : Env W) (n : Net W) (p : URL) (t : Nat)
    (r : Request) (h : r.RequestURI ≠ "") :
    n.clientDo env p t r = (none, ⟨n.world, n.calls ++ [Call.clientDo p t r]⟩) := by
  simp [Net.clientDo, h]

theorem clientDo_sent {W : Type} (env : Env W) (n : Net W) (p : URL) (t : Nat)
    (r : Request) (h : r.RequestURI = "") :
    n.clientDo env p t r = n.issue env (Call.clientDo p t r) := by
  simp [Net.clientDo, h]

theorem handle_select_error {W : Type} (env : Env W) (s : State W) (resp : ResponseWriter)
    (req : Request) (e : String) (h : (selectProxy env s).1 = Except.error e) :
    handleRequestAndRedirect env s resp req =
      ⟨s, httpError resp "Failed to select proxy" 502, req⟩ := by
  unfold handleRequestAndRedirect
  have h2 := selectProxy_snd env s
  rcases hsel : selectProxy env s with ⟨r, s1⟩
  rw [hsel] at h2 h
  simp only at h2 h
  subst h2 h
  rfl

theorem handle_forward_failed {W : Type} (env : Env W) (s : State W) (resp : ResponseWriter)
    (req : Request) (p : URL) (h : (selectProxy env s).1 = Except.ok p)
    (hf : (s.net.clientDo env p 10 (pointAtProxy req p)).1 = none) :
    handleRequestAndRedirect env s resp req =
      ⟨⟨s.ProxyPool, (s.net.clientDo env p 10 (pointAtProxy req p)).2⟩,
        httpError resp "Failed to forward request" 502, pointAtProxy req p⟩ := by
  unfold handleRequestAndRedirect
  have h2 := selectProxy_snd env s
  rcases hsel : selectProxy env s with ⟨r, s1⟩
  rw [hsel] at h2 h
  simp only at h2 h
  subst h2 h
  rcases hc : s1.net.clientDo env p 10 (pointAtProxy req p) with ⟨o, n2⟩
  rw [hc] at hf
  simp only at hf
  subst hf
  simp only [hc]

theorem handle_relay {W : Type} (env : Env W) (s : State W) (resp : ResponseWriter)
    (req : Request) (p : URL) (outResp : Response) (resp2 : ResponseWriter)
    (h : (selectProxy env s).1 = Except.ok p)
    (hf : (s.net.clientDo env p 10 (pointAtProxy req p)).1 = some outResp)
    (hwh : (copyHeader resp outResp.Header).WriteHeader outResp.StatusCode = some resp2) :
    handleRequestAndRedirect env s resp req =
      ⟨⟨s.ProxyPool, (s.net.clientDo env p 10 (pointAtProxy req p)).2⟩,
        ioCopy resp2 outResp.Body, pointAtProxy req p⟩ := by
  unfold handleRequestAndRedirect
  have h2 := selectProxy_snd env s
  rcases hsel : selectProxy env s with ⟨r, s1⟩
  rw [hsel] at h2 h
  simp only at h2 h
  subst h2 h
  rcases hc : s1.net.clientDo env p 10 (pointAtProxy req p) with ⟨o, n2⟩
  rw [hc] at hf
  simp only at hf
  subst hf
  simp only [hc, hwh]

theorem handle_abort {W : Type} (env : Env W) (s : State W) (resp : ResponseWriter)
    (req : Request) (p : URL) (outResp : Response)
    (h : (selectProxy env s).1 = Except.ok p)
    (hf : (s.net.clientDo env p 10 (pointAtProxy req p)).1 = some outResp)
    (hwh : (copyHeader resp outResp.Header).WriteHeader outResp.StatusCode = none) :
    handleRequestAndRedirect env s resp req =
      ⟨⟨s.ProxyPool, (s.net.clientDo env p 10 (pointAtProxy req p)).2⟩,
        { copyHeader resp outResp.Header with aborted := true }, pointAtProxy req p⟩ := by
  unfold handleRequestAndRedirect
  have h2 := selectProxy_snd env s
  rcases hsel : selectProxy env s with ⟨r, s1⟩
  rw [hsel] at h2 h
  simp only at h2 h
  subst h2 h
  rcases hc : s1.net.clientDo env p 10 (pointAtProxy req p) with ⟨o, n2⟩
  rw [hc] at hf
  simp only at hf
  subst hf
  simp only [hc, hwh]

theorem handle_state {W : Type} (env : Env W) (s : State W) (resp : ResponseWriter)
    (req : Request) (p : URL) (hsel : (selectProxy env s).1 = Except.ok p) :
    (handleRequestAndRedirect env s resp req).state =
      ⟨s.ProxyPool, (s.net.clientDo env p 10 (pointAtProxy req p)).2⟩ ∧
    (handleRequestAndRedirect env s resp req).req = pointAtProxy req p := by
  cases hf : (s.net.clientDo env p 10 (pointAtProxy req p)).1 with
  | none => rw [handle_forward_failed env s resp req p hsel hf]; exact ⟨rfl, rfl⟩
  | some outResp =>
    cases hwh : (copyHeader resp outResp.Header).WriteHeader outResp.StatusCode with
    | none => rw [handle_abort env s resp req p outResp hsel hf hwh]; exact ⟨rfl, rfl⟩
    | some resp2 =>
      rw [handle_relay env s resp req p outResp resp2 hsel hf hwh]; exact ⟨rfl, rfl⟩

theorem handle_pool {W : Type} (env : Env W) (s : State W) (resp : ResponseWriter)
    (req : Request) :
    (handleRequestAndRedirect env s resp req).state.ProxyPool = s.ProxyPool := by
  cases hsel : (selectProxy env s).1 with
  | error e => rw [handle_select_error env s resp req e hsel]
  | ok p => rw [(handle_state env s resp req p hsel).1]

theorem handle_calls {W : Type} (env : Env W) (s : State W) (resp : ResponseWriter)
    (req : Request) (p : URL) (hsel : (selectProxy env s).1 = Except.ok p) :
    (handleRequestAndRedirect env s resp req).state.net.calls =
      s.net.calls ++ [Call.clientDo p 10 (pointAtProxy req p)] ∧
    (handleRequestAndRedirect env s resp req).req = pointAtProxy req p := by
  refine ⟨?_, (handle_state env s resp req p hsel).2⟩
  rw [(handle_state env s resp req p hsel).1]
  exact clientDo_calls env s.net p 10 (pointAtProxy req p)

theorem selectProxy_cons {W : Type} (env : Env W) (s : State W) (a : String)
    (rest : List String) (hpool : s.ProxyPool = a :: rest) :
    (selectProxy env s).1 = env.parse a := by
  rw [selectProxy_fst, hpool]

theorem selectProxy_nil {W : Type} (env : Env W) (s : State W) (hpool : s.ProxyPool = []) :
    (selectProxy env s).1 = Except.error "no proxies available" := by
  rw [selectProxy_fst, hpool]

/-- C10: in every state reachable from the initial empty pool, every pool member parses as a
URL, and `selectProxy` returns an error if and only if the pool is empty. -/
theorem reachable_pool_parses {W : Type} (env : Env W) (s : State W)
    (h : Reachable env s) :
    (∀ a ∈ s.ProxyPool, ∃ u, env.parse a = Except.ok u) ∧
    ((∃ e, (selectProxy env s).1 = Except.error e) ↔ s.ProxyPool = []) := by
  have hmem : ∀ a ∈ s.ProxyPool, ∃ u, env.parse a = Except.ok u := by
    induction h with
    | init w => intro a ha; simp at ha
    | update s1 cands _ _ =>
      intro a ha
      rw [(pool_eq_survivors env s1 cands)] at ha
      obtain ⟨n1, hn1⟩ := mem_survivors env cands s1.net a ha
      obtain ⟨u, hu, _⟩ := (validateProxy_true_iff env n1 a).1 hn1
      exact ⟨u, hu⟩
    | serve s1 resp req _ ih =>
      intro a ha
      rw [handle_pool] at ha
      exact ih a ha
  refine ⟨hmem, ?_⟩
  rw [selectProxy_fst]
  cases hp : s.ProxyPool with
  | nil => simp
  | cons a rest =>
    obtain ⟨u, hu⟩ := hmem a (by simp [hp])
    simp [hu]

/-- C3: with an empty pool, `handleRequestAndRedirect` answers a fresh response writer with
status 502 (through `http.Error`), leaves the state untouched, so that no outbound call is
logged and the network is not consulted, and leaves the inbound request as it was. -/
theorem handle_empty_pool {W : Type} (env : Env W) (s : State W) (resp : ResponseWriter)
    (req : Request) (hpool : s.ProxyPool = []) (hw : resp.written = none) :
    (handleRequestAndRedirect env s resp req).resp.status = some 502 ∧
    (handleRequestAndRedirect env s resp req).resp =
      httpError resp "Failed to select proxy" 502 ∧
    (handleRequestAndRedirect env s resp req).state = s ∧
    (handleRequestAndRedirect env s resp req).state.net.calls = s.net.calls ∧
    (handleRequestAndRedirect env s resp req).req = req := by
  rw [handle_select_error env s resp req _ (selectProxy_nil env s hpool)]
  exact ⟨httpError_status resp _ 502 hw (by decide), rfl, rfl, rfl, rfl⟩

theorem handle_refuses_server_request {W : Type} (env : Env W) (s : State W)
    (resp : ResponseWriter) (req : Request) (a : String) (rest : List String) (p : URL)
    (hpool : s.ProxyPool = a :: rest) (hparse : env.parse a = Except.ok p)
    (huri : req.RequestURI ≠ "") :
    handleRequestAndRedirect env s resp req =
      ⟨⟨s.ProxyPool,
          ⟨s.net.world, s.net.calls ++ [Call.clientDo p 10 (pointAtProxy req p)]⟩⟩,
        httpError resp "Failed to forward request" 502, pointAtProxy req p⟩ := by
  have hsel : (selectProxy env s).1 = Except.ok p := by
    rw [selectProxy_cons env s a rest hpool, hparse]
  have hr := clientDo_refused env s.net p 10 (pointAtProxy req p) huri
  rw [handle_forward_failed env s resp req p hsel (by rw [hr]), hr]

/-- C4: at the failing input the upstream response is not relayed.  The pool holds one working
proxy, whose network would answer the forwarded request with 200 and the body `ok`; the writer
is fresh; the request is one the server delivers, so its `RequestURI` is set.  The copy
`*outReq = *req` keeps `RequestURI`, `client.Do` refuses the request, nothing is sent (the
world is unchanged), and the client gets status 502 with the message of `http.Error`. -/
theorem handle_server_request_not_relayed :
    (sampleEnv.send net0.world
      (Call.clientDo goodURL 10 (pointAtProxy sampleRequest goodURL))).1 = some sampleResponse ∧
    (handleRequestAndRedirect sampleEnv ⟨["http://good:8080"], net0⟩ ResponseWriter.fresh
      sampleRequest).resp = httpError ResponseWriter.fresh "Failed to forward request" 502 ∧
    (handleRequestAndRedirect sampleEnv ⟨["http://good:8080"], net0⟩ ResponseWriter.fresh
      sampleRequest).resp.status = some 502 ∧
    (handleRequestAndRedirect sampleEnv ⟨["http://good:8080"], net0⟩ ResponseWriter.fresh
      sampleRequest).resp.body = ("Failed to forward request" ++ "\n").toUTF8.toList ∧
    (handleRequestAndRedirect sampleEnv ⟨["http://good:8080"], net0⟩ ResponseWriter.fresh
      sampleRequest).state.net.world = net0.world := by
  rw [handle_refuses_server_request sampleEnv ⟨["http://good:8080"], net0⟩ ResponseWriter.fresh
    sampleRequest "http://good:8080" [] goodURL rfl rfl (by decide)]
  exact ⟨by decide, rfl, httpError_status _ _ 502 rfl (by decide),
    httpError_body _ _ 502 rfl (by decide), rfl⟩

/-- C5: the handler returned by `BasicAuth` runs the inner handler exactly when the request
carries Basic credentials equal to the configured pair, and then it is the inner handler's
result; in every other case the result does not depend on the inner handler, the state is
unchanged, the header `WWW-Authenticate` is set to the Basic challenge and `http.Error`
answers 401 (status 401 and the challenge among the headers sent, on a fresh writer). -/
theorem basicAuth_gate {W σ : Type} (env : Env W) (handler : HandlerFunc σ)
    (username password : String) (s : σ) (w : ResponseWriter) (r : Request) :
    (env.basicAuth r = some (username, password) →
      BasicAuth env handler username password s w r = handler s w r) ∧
    (env.basicAuth r ≠ some (username, password) →
      BasicAuth env handler username password s w r =
        ⟨s, httpError { w with header := w.header.Set "WWW-Authenticate" basicChallenge }
          "Unauthorized" 401, r⟩ ∧
      (∀ other : HandlerFunc σ, BasicAuth env other username password s w r =
        BasicAuth env handler username password s w r) ∧
      (BasicAuth env handler username password s w r).state = s ∧
      (w.written = none →
        (BasicAuth env handler username password s w r).resp.status = some 401 ∧
        (BasicAuth env handler username password s w r).resp.sentHeader.Values
          "WWW-Authenticate" = [basicChallenge])) := by
  constructor
  · intro h
    simp [BasicAuth, h]
  · intro h
    have hres : ∀ other : HandlerFunc σ, BasicAuth env other username password s w r =
        ⟨s, httpError { w with header := w.header.Set "WWW-Authenticate" basicChallenge }
          "Unauthorized" 401, r⟩ := by
      intro other
      unfold BasicAuth
      cases hb : env.basicAuth r with
      | none => rfl
      | some c =>
        rcases c with ⟨user, pass⟩
        have hne : ¬ (user = username ∧ pass = password) := by
          rintro ⟨rfl, rfl⟩
          exact h hb
        have : (user != username || pass != password) = true := by
          by_cases hu : user = username
          · have hp : ¬ pass = password := fun hp => hne ⟨hu, hp⟩
            simp [hu, hp]
          · simp [hu]
        simp [this]
    refine ⟨hres handler, fun other => by rw [hres other, hres handler], by rw [hres handler],
      ?_⟩
    intro hw
    rw [hres handler]
    have hw1 : ({ w with header := w.header.Set "WWW-Authenticate" basicChallenge } :
        ResponseWriter).written = none := hw
    refine ⟨httpError_status _ _ 401 hw1 (by decide), ?_⟩
    show (httpError { w with header := w.header.Set "WWW-Authenticate" basicChallenge }
      "Unauthorized" 401).sentHeader.Values "WWW-Authenticate" = [basicChallenge]
    rw [httpError_sentHeader _ _ 401 hw1 (by decide)]
    simp only [Header.Values, Header.Set]
    rw [Header.lookup_put_ne _ _ _ _ (by decide), Header.lookup_put_ne _ _ _ _ (by decide),
      Header.lookup_del_ne _ _ _ (by decide), Header.lookup_put_self]

/-- C6 (as stated) fails: the proxy `odd:8080` answers the forwarded request without error and
with status 99; `WriteHeader(99)` panics, so the request ends neither in 502 nor in a relay of
the upstream status: no status is written and the response is aborted. -/
theorem handle_two_outcomes_counterexample :
    (Net.clientDo sampleEnv net0 oddURL 10 (pointAtProxy clientRequest oddURL)).1 =
      some oddResponse ∧
    ¬ ((handleRequestAndRedirect sampleEnv ⟨["http://odd:8080"], net0⟩ ResponseWriter.fresh
          clientRequest).resp.status = some 502 ∨
        (handleRequestAndRedirect sampleEnv ⟨["http://odd:8080"], net0⟩ ResponseWriter.fresh
          clientRequest).resp.status = some oddResponse.StatusCode) ∧
    (handleRequestAndRedirect sampleEnv ⟨["http://odd:8080"], net0⟩ ResponseWriter.fresh
      clientRequest).resp.status = none ∧
    (handleRequestAndRedirect sampleEnv ⟨["http://odd:8080"], net0⟩ ResponseWriter.fresh
      clientRequest).resp.aborted = true := by
  decide

/-- C6 (amended): on a fresh response writer, if the pool is non-empty, its first address
parses to `p` and the one `client.Do` returns an error, then the client gets status 502 from
`http.Error`, the headers sent are those `http.Error` sets, the body is its message, and
exactly one call, the `client.Do` through `p`, was added to the log, whatever other addresses
the pool holds.  In general a request ends either in 502 through `http.Error`, when no
upstream response was obtained, with at most one call made, or, when `client.Do` returned a
response, with exactly one call made and, if its status code is from 200 to 999, that status
relayed to the client. -/
theorem handle_upstream_failure {W : Type} (env : Env W) (s : State W)
    (resp : ResponseWriter) (req : Request) (hw : resp.written = none) :
    (∀ (a : String) (rest : List String) (p : URL),
      s.ProxyPool = a :: rest → env.parse a = Except.ok p →
      (s.net.clientDo env p 10 (pointAtProxy req p)).1 = none →
        (handleRequestAndRedirect env s resp req).resp.status = some 502 ∧
        (handleRequestAndRedirect env s resp req).resp =
          httpError resp "Failed to forward request" 502 ∧
        (handleRequestAndRedirect env s resp req).resp.sentHeader =
          ((resp.header.Del "Content-Length").Set "Content-Type"
            "text/plain; charset=utf-8").Set "X-Content-Type-Options" "nosniff" ∧
        (handleRequestAndRedirect env s resp req).resp.body =
          resp.body ++ ("Failed to forward request" ++ "\n").toUTF8.toList ∧
        (handleRequestAndRedirect env s resp req).state.net.calls =
          s.net.calls ++ [Call.clientDo p 10 (pointAtProxy req p)]) ∧
    (((∀ p, (selectProxy env s).1 = Except.ok p →
          (s.net.clientDo env p 10 (pointAtProxy req p)).1 = none) ∧
        (handleRequestAndRedirect env s resp req).resp.status = some 502 ∧
        (∃ msg, (handleRequestAndRedirect env s resp req).resp = httpError resp msg 502) ∧
        (handleRequestAndRedirect env s resp req).state.net.calls.length ≤
          s.net.calls.length + 1) ∨
      (∃ p outResp, (selectProxy env s).1 = Except.ok p ∧
        (s.net.clientDo env p 10 (pointAtProxy req p)).1 = some outResp ∧
        (200 ≤ outResp.StatusCode → outResp.StatusCode ≤ 999 →
          (handleRequestAndRedirect env s resp req).resp.status = some outResp.StatusCode) ∧
        (handleRequestAndRedirect env s resp req).state.net.calls =
          s.net.calls ++ [Call.clientDo p 10 (pointAtProxy req p)])) := by
  constructor
  · intro a rest p hpool hparse hf
    have hsel : (selectProxy env s).1 = Except.ok p := by
      rw [selectProxy_cons env s a rest hpool, hparse]
    refine ⟨?_, ?_, ?_, ?_, (handle_calls env s resp req p hsel).1⟩
    all_goals rw [handle_forward_failed env s resp req p hsel hf]
    · exact httpError_status resp _ 502 hw (by decide)
    · exact httpError_sentHeader resp _ 502 hw (by decide)
    · exact httpError_body resp _ 502 hw (by decide)
  · cases hsel : (selectProxy env s).1 with
    | error e =>
      left
      rw [handle_select_error env s resp req e hsel]
      exact ⟨fun p hp => (by cases hp), httpError_status resp _ 502 hw (by decide), ⟨_, rfl⟩,
        (by simp)⟩
    | ok p =>
      cases hf : (s.net.clientDo env p 10 (pointAtProxy req p)).1 with
      | none =>
        left
        refine ⟨?_, ?_, ?_, ?_⟩
        · intro q hq
          cases hq
          exact hf
        · rw [handle_forward_failed env s resp req p hsel hf]
          exact httpError_status resp _ 502 hw (by decide)
        · rw [handle_forward_failed env s resp req p hsel hf]
          exact ⟨_, rfl⟩
        · rw [(handle_calls env s resp req p hsel).1]
          simp
      | some outResp =>
        right
        refine ⟨p, outResp, rfl, hf, ?_, (handle_calls env s resp req p hsel).1⟩
        intro hlo hhi
        have hc : checkWriteHeaderCode outResp.StatusCode = true := by
          simp only [checkWriteHeaderCode, Bool.and_eq_true, decide_eq_true_eq]
          omega
        have hw1 : (copyHeader resp outResp.Header).written = none := hw
        have hwh := WriteHeader_valid (copyHeader resp outResp.Header) outResp.StatusCode hw1 hc
        rw [handle_relay env s resp req p outResp _ hsel hf hwh]
        have := (ioCopy_written outResp.Body _ _ (rfl :
          ({ copyHeader resp outResp.Header with
              written := some (outResp.StatusCode, (copyHeader resp outResp.Header).header) } :
            ResponseWriter).written = _)).1
        simp [ResponseWriter.status, this]

/-- C9: when `selectProxy` returns the proxy URL `p`, exactly one call is logged, a `client.Do`
through a transport whose proxy is `p` (timeout 10 s), and the request handed to it has the
scheme and host of `p` in its URL and, in every other part, what the inbound request had. -/
theorem handle_outbound_request {W : Type} (env : Env W) (s : State W)
    (resp : ResponseWriter) (req : Request) (p : URL)
    (hsel : (selectProxy env s).1 = Except.ok p) :
    ∃ outReq : Request,
      (handleRequestAndRedirect env s resp req).state.net.calls =
        s.net.calls ++ [Call.clientDo p 10 outReq] ∧
      outReq.URL.Scheme = p.Scheme ∧ outReq.URL.Host = p.Host ∧
      outReq.Method = req.Method ∧ outReq.URL.Path = req.URL.Path ∧
      outReq.URL.RawQuery = req.URL.RawQuery ∧ outReq.URL.User = req.URL.User ∧
      outReq.URL.Fragment = req.URL.Fragment ∧ outReq.Header = req.Header ∧
      outReq.Body = req.Body ∧ outReq.Host = req.Host ∧
      outReq.RequestURI = req.RequestURI :=
  ⟨pointAtProxy req p, (handle_calls env s resp req p hsel).1, rfl, rfl, rfl, rfl, rfl, rfl,
    rfl, rfl, rfl, rfl, rfl⟩

/-! ## Lemmas on the interleaving model -/

theorem inv_init {W : Type} (env : Env W) (pool : List String) (net0 : Net W)
    (cands : List String) : Inv env pool net0 cands (Config.init pool net0 cands) := by
  simp [Inv, Config.init]

theorem inv_stepUpdater {W : Type} (env : Env W) (pool : List String) (net0 : Net W)
    (cands : List String) (c c1 : Config W) (hinv : Inv env pool net0 cands c)
    (hstep : stepUpdater env c = some c1) : Inv env pool net0 cands c1 := by
  rcases c with ⟨P, mu, net, np, upc, spc, seen⟩
  obtain ⟨hnp, hu, hs⟩ := hinv
  simp only at hnp hu hs
  subst hnp
  cases upc with
  | lock =>
    simp only [stepUpdater] at hstep
    cases mu with
    | some t => simp at hstep
    | none =>
      simp only [Option.isNone_none, if_true, Option.some.injEq] at hstep
      subst hstep
      obtain ⟨hP, hn, _⟩ := hu
      subst hP hn
      refine ⟨rfl, ⟨rfl, rfl, by simp⟩, ?_⟩
      cases spc <;> simp_all
  | loop todo valid =>
    obtain ⟨hP, hmu, hsurv⟩ := hu
    subst hP hmu
    cases todo with
    | nil =>
      simp only [stepUpdater, Option.some.injEq] at hstep
      subst hstep
      refine ⟨rfl, ⟨by simpa [survivors_nil] using hsurv, rfl⟩, ?_⟩
      cases spc <;> simp_all
    | cons a todo =>
      simp only [stepUpdater, Option.some.injEq] at hstep
      subst hstep
      refine ⟨rfl, ⟨rfl, rfl, ?_⟩, ?_⟩
      · rw [← hsurv, survivors_cons, updateStep_eq]
        simp only
        cases (validateProxy env net a).1 <;> simp
      · cases spc <;> simp_all
  | unlock =>
    simp only [stepUpdater, Option.some.injEq] at hstep
    subst hstep
    obtain ⟨hP, hmu⟩ := hu
    subst hmu
    refine ⟨rfl, ⟨hP, by simp⟩, ?_⟩
    cases spc <;> simp_all
  | done => simp [stepUpdater] at hstep

theorem inv_stepSelector {W : Type} (env : Env W) (pool : List String) (net0 : Net W)
    (cands : List String) (c c1 : Config W) (hinv : Inv env pool net0 cands c)
    (hstep : stepSelector env c = some c1) : Inv env pool net0 cands c1 := by
  rcases c with ⟨P, mu, net, np, upc, spc, seen⟩
  obtain ⟨hnp, hu, hs⟩ := hinv
  simp only at hnp hu hs
  subst hnp
  cases spc with
  | lock =>
    simp only [stepSelector] at hstep
    cases mu with
    | some t => simp at hstep
    | none =>
      simp only [Option.isNone_none, if_true, Option.some.injEq] at hstep
      subst hstep
      refine ⟨rfl, ?_, ⟨hs.1, rfl⟩⟩
      cases upc <;> simp_all
  | readLen =>
    obtain ⟨hseen, hmu⟩ := hs
    subst hseen hmu
    simp only [stepSelector] at hstep
    cases P with
    | nil =>
      simp only [List.length_nil, beq_self_eq_true, if_true, Option.some.injEq] at hstep
      subst hstep
      refine ⟨rfl, hu, rfl, by simp, ?_⟩
      simp [selectProxy]
    | cons a rest =>
      simp only [List.length_cons, Option.some.injEq] at hstep
      simp at hstep
      subst hstep
      exact ⟨rfl, hu, by simp, by simp, rfl⟩
  | readFirst =>
    obtain ⟨hseen, hne, hmu⟩ := hs
    subst hseen hmu
    simp only [stepSelector] at hstep
    cases P with
    | nil => exact absurd rfl hne
    | cons a rest =>
      simp only [List.head?_cons, Option.some.injEq] at hstep
      subst hstep
      refine ⟨rfl, hu, rfl, by simp, ?_⟩
      simp [selectProxy]
  | unlock r =>
    obtain ⟨hmu, hseen, hr⟩ := hs
    subst hmu
    simp only [stepSelector, Option.some.injEq] at hstep
    subst hstep
    cases upc with
    | lock => exact ⟨rfl, ⟨hu.1, hu.2.1, by simp⟩, P, Or.inl hu.1, hseen, hr⟩
    | loop todo valid => simp at hu
    | unlock => simp at hu
    | done => exact ⟨rfl, ⟨hu.1, by simp⟩, P, Or.inr hu.1, hseen, hr⟩
  | done r => simp [stepSelector] at hstep

theorem inv_step {W : Type} (env : Env W) (pool : List String) (net0 : Net W)
    (cands : List String) (c : Config W) (t : Tid) (hinv : Inv env pool net0 cands c) :
    Inv env pool net0 cands (step env c t) := by
  cases t with
  | updater =>
    simp only [step]
    cases h : stepUpdater env c with
    | none => simpa using hinv
    | some c1 => simpa using inv_stepUpdater env pool net0 cands c c1 hinv h
  | selector =>
    simp only [step]
    cases h : stepSelector env c with
    | none => simpa using hinv
    | some c1 => simpa using inv_stepSelector env pool net0 cands c c1 hinv h

theorem inv_run {W : Type} (env : Env W) (pool : List String) (net0 : Net W)
    (cands : List String) (sched : List Tid) :
    ∀ c : Config W, Inv env pool net0 cands c → Inv env pool net0 cands (run env sched c) := by
  induction sched with
  | nil => intro c h; exact h
  | cons t ts ih => intro c h; exact ih _ (inv_step env pool net0 cands c t h)

theorem inv_seen {W : Type} (env : Env W) (pool : List String) (net0 : Net W)
    (cands : List String) (c : Config W) (hinv : Inv env pool net0 cands c) :
    ∃ P0, (P0 = pool ∨ P0 = survivors env net0 cands) ∧ (∀ P ∈ c.seen, P = P0) ∧
      ∀ r, (c.spc = SelectPc.unlock r ∨ c.spc = SelectPc.done r) →
        r = some (selectProxy env ⟨P0, net0⟩).1 := by
  rcases c with ⟨P, mu, net, np, upc, spc, seen⟩
  obtain ⟨_, hu, hs⟩ := hinv
  simp only at hu hs
  have hP : mu = some Tid.selector → P = pool ∨ P = survivors env net0 cands := by
    intro hmu
    subst hmu
    cases upc with
    | lock => exact Or.inl hu.1
    | loop todo valid => simp at hu
    | unlock => simp at hu
    | done => exact Or.inr hu.1
  cases spc with
  | lock => exact ⟨pool, Or.inl rfl, by simp [hs.1], by simp⟩
  | readLen => exact ⟨pool, Or.inl rfl, by simp [hs.1], by simp⟩
  | readFirst => exact ⟨P, hP hs.2.2, by simp [hs.1], by simp⟩
  | unlock r =>
    refine ⟨P, hP hs.1, hs.2.1, ?_⟩
    intro r1 hr1
    simp only [SelectPc.unlock.injEq, or_false, reduceCtorEq] at hr1
    subst hr1
    exact hs.2.2
  | done r =>
    obtain ⟨P0, h0, hseen, hr⟩ := hs
    refine ⟨P0, h0, hseen, ?_⟩
    intro r1 hr1
    simp only [SelectPc.done.injEq, false_or, reduceCtorEq] at hr1
    subst hr1
    exact hr

/-- C8: in every interleaving of one `selectProxy` call with one `updateProxyList` call, each
value of `ProxyPool` read by `selectProxy` is the whole pool from before the update or the
whole pool the update produces, both of its reads see the same one, and what it returns is
what the sequential `selectProxy` returns on that pool (in particular it never panics). -/
theorem select_sees_snapshot {W : Type} (env : Env W) (pool : List String) (net0 : Net W)
    (cands : List String) (sched : List Tid) :
    ∃ P0, (P0 = pool ∨ P0 = (updateProxyList env ⟨pool, net0⟩ cands).ProxyPool) ∧
      (∀ P ∈ (run env sched (Config.init pool net0 cands)).seen, P = P0) ∧
      ∀ r, ((run env sched (Config.init pool net0 cands)).spc = SelectPc.unlock r ∨
          (run env sched (Config.init pool net0 cands)).spc = SelectPc.done r) →
        r = some (selectProxy env ⟨P0, net0⟩).1 := by
  rw [pool_eq_survivors]
  exact inv_seen env pool net0 cands _
    (inv_run env pool net0 cands sched _ (inv_init env pool net0 cands))

/-! ## Instances in the toy network -/

theorem sampleOk_spec (n : Net Nat) (a : String) : (validateProxy sampleEnv n a).1 = sampleOk a := by
  unfold sampleOk validateProxy
  cases sampleEnv.parse a with
  | error e => rfl
  | ok u =>
    simp only [Net.issue, sampleEnv]
    split <;> split <;> simp_all

/-- Instance of C1: four candidates, two of them the working proxy, over a prior pool. -/
theorem updateProxyList_pool_witness :
    (updateProxyList sampleEnv ⟨["http://old:1"], net0⟩
        ["http://good:8080", "ftp://x", "http://teapot:8080", "http://good:8080"]).ProxyPool =
      ["http://good:8080", "ftp://x", "http://teapot:8080", "http://good:8080"].filter
        sampleOk ∧
    (updateProxyList sampleEnv ⟨["http://old:1"], net0⟩
        ["http://good:8080", "ftp://x", "http://teapot:8080", "http://good:8080"]).ProxyPool.length
      = ["http://good:8080", "ftp://x", "http://teapot:8080", "http://good:8080"].countP
        sampleOk :=
  (updateProxyList_pool sampleEnv ⟨["http://old:1"], net0⟩
    ["http://good:8080", "ftp://x", "http://teapot:8080", "http://good:8080"]).2.2.2.2.2
    sampleOk sampleOk_spec

/-- Instance of C3: the empty pool and a fresh writer. -/
theorem handle_empty_pool_witness :
    (handleRequestAndRedirect sampleEnv ⟨[], net0⟩ ResponseWriter.fresh
      sampleRequest).resp.status = some 502 ∧
    (handleRequestAndRedirect sampleEnv ⟨[], net0⟩ ResponseWriter.fresh
      sampleRequest).state.net.calls = [] :=
  ⟨(handle_empty_pool sampleEnv ⟨[], net0⟩ ResponseWriter.fresh sampleRequest rfl rfl).1,
    (handle_empty_pool sampleEnv ⟨[], net0⟩ ResponseWriter.fresh sampleRequest rfl rfl).2.2.2.1⟩

/-- Instance of C5: the request with the right credentials reaches the inner handler, the
request without credentials gets 401 and the state is untouched. -/
theorem basicAuth_gate_witness :
    BasicAuth sampleEnv (handleRequestAndRedirect sampleEnv) "user" "pass"
        ⟨["http://good:8080"], net0⟩ ResponseWriter.fresh authedRequest =
      handleRequestAndRedirect sampleEnv ⟨["http://good:8080"], net0⟩ ResponseWriter.fresh
        authedRequest ∧
    (BasicAuth sampleEnv (handleRequestAndRedirect sampleEnv) "user" "pass"
        ⟨["http://good:8080"], net0⟩ ResponseWriter.fresh sampleRequest).state =
      ⟨["http://good:8080"], net0⟩ ∧
    (BasicAuth sampleEnv (handleRequestAndRedirect sampleEnv) "user" "pass"
        ⟨["http://good:8080"], net0⟩ ResponseWriter.fresh sampleRequest).resp.status =
      some 401 :=
  ⟨(basicAuth_gate sampleEnv (handleRequestAndRedirect sampleEnv) "user" "pass"
      ⟨["http://good:8080"], net0⟩ ResponseWriter.fresh authedRequest).1 (by decide),
    ((basicAuth_gate sampleEnv (handleRequestAndRedirect sampleEnv) "user" "pass"
      ⟨["http://good:8080"], net0⟩ ResponseWriter.fresh sampleRequest).2 (by decide)).2.2.1,
    (((basicAuth_gate sampleEnv (handleRequestAndRedirect sampleEnv) "user" "pass"
      ⟨["http://good:8080"], net0⟩ ResponseWriter.fresh sampleRequest).2
        (by decide)).2.2.2 rfl).1⟩

/-- Instance of C6 (amended): the first pool member is unreachable, a working one follows;
the only call made goes through the first. -/
theorem handle_upstream_failure_witness :
    (handleRequestAndRedirect sampleEnv ⟨["http://dead:1", "http://good:8080"], net0⟩
      ResponseWriter.fresh clientRequest).resp.status = some 502 ∧
    (handleRequestAndRedirect sampleEnv ⟨["http://dead:1", "http://good:8080"], net0⟩
      ResponseWriter.fresh clientRequest).state.net.calls =
        [] ++ [Call.clientDo deadURL 10 (pointAtProxy clientRequest deadURL)] :=
  ⟨((handle_upstream_failure sampleEnv ⟨["http://dead:1", "http://good:8080"], net0⟩
      ResponseWriter.fresh clientRequest rfl).1 "http://dead:1" ["http://good:8080"] deadURL
      rfl rfl (by decide)).1,
    ((handle_upstream_failure sampleEnv ⟨["http://dead:1", "http://good:8080"], net0⟩
      ResponseWriter.fresh clientRequest rfl).1 "http://dead:1" ["http://good:8080"] deadURL
      rfl rfl (by decide)).2.2.2.2⟩

/-- Instance of C7: an address that does not parse costs no call, one that parses costs one
GET of the test URL. -/
theorem validateProxy_spec_witness :
    validateProxy sampleEnv net0 ":bad" = (false, net0) ∧
    (validateProxy sampleEnv net0 "http://good:8080").2.calls =
      [] ++ [Call.clientGet goodURL 5 testURL] :=
  ⟨(validateProxy_spec sampleEnv net0 ":bad" ⟨[], net0⟩ []).2.1
      "missing protocol scheme" rfl,
    (validateProxy_spec sampleEnv net0 "http://good:8080" ⟨[], net0⟩ []).2.2.1 goodURL rfl⟩

/-- Instance of C9: the request sent through the working proxy. -/
theorem handle_outbound_request_witness :
    ∃ outReq : Request,
      (handleRequestAndRedirect sampleEnv ⟨["http://good:8080"], net0⟩ ResponseWriter.fresh
        sampleRequest).state.net.calls = [] ++ [Call.clientDo goodURL 10 outReq] ∧
      outReq.URL.Scheme = "http" ∧ outReq.URL.Host = "good:8080" ∧
      outReq.Method = "GET" ∧ outReq.URL.Path = "/a" :=
  match handle_outbound_request sampleEnv ⟨["http://good:8080"], net0⟩ ResponseWriter.fresh
      sampleRequest goodURL rfl with
  | ⟨outReq, hc, h1, h2, h3, h4, _⟩ => ⟨outReq, hc, h1, h2, h3, h4⟩

/-- Instance of C10: the state after one refresh from the initial state. -/
theorem reachable_pool_parses_witness :
    Reachable sampleEnv (updateProxyList sampleEnv ⟨[], net0⟩
      ["http://good:8080", ":bad"]) ∧
    ∀ a ∈ (updateProxyList sampleEnv ⟨[], net0⟩ ["http://good:8080", ":bad"]).ProxyPool,
      ∃ u, sampleEnv.parse a = Except.ok u :=
  ⟨Reachable.update _ _ (Reachable.init 0),
    (reachable_pool_parses sampleEnv _ (Reachable.update _ _ (Reachable.init 0))).1⟩

/-! ## Both snapshots are observed in the interleaving model -/

theorem run_select_first :
    (run sampleEnv
        [Tid.selector, Tid.updater, Tid.selector, Tid.updater, Tid.selector, Tid.selector,
          Tid.updater, Tid.updater, Tid.updater, Tid.updater]
        (Config.init ["http://old:1"] net0 ["http://good:8080"])).seen =
      [["http://old:1"], ["http://old:1"]] := by
  decide

theorem run_update_first :
    (run sampleEnv
        [Tid.updater, Tid.selector, Tid.updater, Tid.selector, Tid.updater, Tid.updater,
          Tid.selector, Tid.selector, Tid.selector, Tid.selector]
        (Config.init ["http://old:1"] net0 ["http://good:8080"])).seen =
      [["http://good:8080"], ["http://good:8080"]] := by
  decide

end ProxyPulse
